import Mathlib

/-!
Verification of the Challenge Ledger core of the balance-bloom repository.

The definitions below are a shallow embedding of the TypeScript in
`src/pages/Challenge.tsx` (deposit-sequence generator, status updates,
progress calculator), the Dashboard progress computation, and the SQL
schema (`challenge_40k` with `UNIQUE(user_id)`, `challenge_deposits`).
Machine numbers are modelled as `Nat` for integer deposit values and `ℚ`
for the JS `number` arithmetic of the progress calculator.
-/

set_option maxRecDepth 100000

namespace BalanceBloom

/-- Deposit status, from the TS union `'pending' | 'completed' | 'skipped'`
and the SQL CHECK constraint on `challenge_deposits.status`. -/
inductive Status : Type
  | pending
  | completed
  | skipped
deriving DecidableEq, Repr

/-- The parameter type of `updateDepositStatus`:
`status: 'completed' | 'skipped'`. -/
inductive ReqStatus : Type
  | completed
  | skipped
deriving DecidableEq, Repr

def ReqStatus.toStatus : ReqStatus → Status
  | ReqStatus.completed => Status.completed
  | ReqStatus.skipped => Status.skipped

/-- The raw deposit values pushed by `createChallenge`
(`Challenge.tsx` lines 97–104): the ascending loop pushes 1,…,200 and the
descending loop pushes 200,…,1. -/
def depositValuesRaw : List Nat :=
  ((List.range 200).map (fun i => i + 1)) ++ ((List.range 200).map (fun i => 200 - i))

/-- `depositValues.splice(depositValues.indexOf(x), 1)` when `x` occurs in
the list: remove the first occurrence of `x`, scanning from the start. -/
def removeFirst (x : Nat) : List Nat → List Nat
  | [] => []
  | a :: as => if a = x then as else a :: removeFirst x as

/-- The generated deposit-value sequence of `createChallenge`
(`Challenge.tsx` lines 97–111): the raw 1..200,200..1 run, with the first
occurrence of 200 removed when the target is exactly 40000. -/
def generate (target : Nat) : List Nat :=
  if target = 40000 then removeFirst 200 depositValuesRaw else depositValuesRaw

/-- A row of `depositsToInsert` (`Challenge.tsx` lines 113–118). -/
structure DepositInsert : Type where
  challenge_id : Nat
  deposit_value : Nat
  sequence_order : Nat
  status : Status
deriving DecidableEq, Repr

/-- JS `Array.prototype.map` with the element index available, the index
starting at `k`. -/
def mapIdxFrom {α β : Type} (f : Nat → α → β) : Nat → List α → List β
  | _, [] => []
  | k, a :: as => f k a :: mapIdxFrom f (k + 1) as

/-- `depositsToInsert` from `Challenge.tsx` lines 113–118: each generated
value becomes a row with `sequence_order = index + 1` and
`status = 'pending'`. -/
def depositsToInsert (challengeId target : Nat) : List DepositInsert :=
  mapIdxFrom (fun index value =>
    { challenge_id := challengeId
      deposit_value := value
      sequence_order := index + 1
      status := Status.pending }) 0 (generate target)

/-- A `challenge_deposits` row as seen by the Challenge page and the
database: the TS `Deposit` interface (id, deposit_value, sequence_order,
status) together with the row's `completed_at` column (timestamps are
modelled as `Nat`). -/
structure Deposit : Type where
  id : Nat
  deposit_value : Nat
  sequence_order : Nat
  status : Status
  completed_at : Option Nat
deriving DecidableEq, Repr

/-- A freshly inserted deposit row: `status = 'pending'` from
`depositsToInsert`, `completed_at` NULL by the schema default. -/
def mkDeposit (id deposit_value sequence_order : Nat) : Deposit :=
  { id := id
    deposit_value := deposit_value
    sequence_order := sequence_order
    status := Status.pending
    completed_at := none }

/-- The row update performed by `updateDepositStatus`
(`Challenge.tsx` lines 144–150): set `status` to the requested status and
`completed_at` to now when the requested status is `'completed'`, else to
null. The current status is not consulted. -/
def applyStatusUpdate (now : Nat) (req : ReqStatus) (d : Deposit) : Deposit :=
  { d with
    status := req.toStatus
    completed_at := if req = ReqStatus.completed then some now else none }

/-- The reset branch of the deposit button's onClick
(`Challenge.tsx` lines 259–263): set `status = 'pending'`,
`completed_at = null`. -/
def resetToPending (d : Deposit) : Deposit :=
  { d with status := Status.pending, completed_at := none }

/-- One click on a deposit button (`Challenge.tsx` lines 253–268):
pending → request `'completed'`, completed → request `'skipped'`,
otherwise (skipped) → reset to pending. -/
def clickStep (now : Nat) (d : Deposit) : Deposit :=
  match d.status with
  | Status.pending => applyStatusUpdate now ReqStatus.completed d
  | Status.completed => applyStatusUpdate now ReqStatus.skipped d
  | Status.skipped => resetToPending d

/-- `updateDepositStatus` over the deposit collection: the rows whose id
matches `depositId` receive the status update, the rest are unchanged
(the `.eq('id', depositId)` update / the `setDeposits` map). -/
def updateDepositStatus (depositId : Nat) (req : ReqStatus) (now : Nat)
    (ds : List Deposit) : List Deposit :=
  ds.map fun d => if d.id = depositId then applyStatusUpdate now req d else d

/-- The four-row transition table of the state machine realised by
`clickStep` (spec §4.2). -/
def validTransition : Status → Status → Prop
  | Status.pending, Status.completed => True
  | Status.completed, Status.skipped => True
  | Status.skipped, Status.pending => True
  | Status.completed, Status.pending => True
  | _, _ => False

/-- `completedValue` (`Challenge.tsx` lines 166–168): sum of
`deposit_value` over the deposits whose status is `'completed'`. -/
def completedValue (ds : List Deposit) : ℚ :=
  (ds.filter fun d => d.status == Status.completed).foldl
    (fun acc d => acc + (d.deposit_value : ℚ)) 0

/-- `remainingValue` (`Challenge.tsx` line 170). -/
def remainingValue (targetValue : ℚ) (ds : List Deposit) : ℚ :=
  targetValue - completedValue ds

/-- `progressPercent` (`Challenge.tsx` line 171). -/
def progressPercent (targetValue : ℚ) (ds : List Deposit) : ℚ :=
  if targetValue > 0 then completedValue ds / targetValue * 100 else 0

/-- The challenge-complete condition (`Challenge.tsx` line 233:
the congratulation banner shows when `progressPercent >= 100`). -/
def challengeComplete (targetValue : ℚ) (ds : List Deposit) : Prop :=
  progressPercent targetValue ds ≥ 100

/-- The Dashboard's challenge query (`fetchData`): the store returns the
`deposit_value` column of the rows with `status = 'completed'`. -/
def dashboardDepositValues (ds : List Deposit) : List Nat :=
  (ds.filter fun d => d.status == Status.completed).map fun d => d.deposit_value

/-- The Dashboard's `current` accumulator:
`deposits?.reduce((sum, d) => sum + Number(d.deposit_value), 0) || 0`. -/
def dashboardCurrent (ds : List Deposit) : ℚ :=
  (dashboardDepositValues ds).foldl (fun acc (v : Nat) => acc + (v : ℚ)) 0

/-- The Dashboard's `challengePercent`:
`target > 0 ? (current / target) * 100 : 0`. -/
def dashboardChallengePercent (target current : ℚ) : ℚ :=
  if target > 0 then current / target * 100 else 0

lemma mapIdxFrom_length {α β : Type} (f : Nat → α → β) :
    ∀ (k : Nat) (l : List α), (mapIdxFrom f k l).length = l.length := by
  intro k l
  induction l generalizing k with
  | nil => rfl
  | cons a as ih => simp [mapIdxFrom, ih]

lemma mapIdxFrom_get {α β : Type} (f : Nat → α → β) :
    ∀ (l : List α) (k i : Nat) (h : i < (mapIdxFrom f k l).length)
      (h2 : i < l.length),
      (mapIdxFrom f k l).get ⟨i, h⟩ = f (k + i) (l.get ⟨i, h2⟩) := by
  intro l
  induction l with
  | nil => intro k i h h2; exact absurd h2 (by simp)
  | cons a as ih =>
    intro k i h h2
    cases i with
    | zero => rfl
    | succ j =>
      have hj : j < (mapIdxFrom f (k + 1) as).length := by
        simpa [mapIdxFrom] using h
      have hj2 : j < as.length := by simpa using h2
      have := ih (k + 1) j hj hj2
      simpa [mapIdxFrom, Nat.add_assoc, Nat.add_comm 1 j] using this

/-- A row of the `challenge_40k` table. -/
structure Challenge40k : Type where
  id : Nat
  user_id : Nat
  target_value : Nat
deriving DecidableEq, Repr

/-- The store's record sets relevant to challenge creation. -/
structure Store : Type where
  challenge_40k : List Challenge40k
  challenge_deposits : List DepositInsert
deriving DecidableEq, Repr

/-- Errors the store surfaces to `createChallenge`. -/
inductive DbError : Type
  | DuplicateChallenge
deriving DecidableEq, Repr

/-- Insert into `challenge_40k`: the schema's `UNIQUE(user_id)` makes the
insert fail when a row for the same user already exists. -/
def insertChallenge40k (st : Store) (row : Challenge40k) :
    Except DbError Store :=
  if st.challenge_40k.any fun c => c.user_id == row.user_id then
    Except.error DbError.DuplicateChallenge
  else
    Except.ok { st with challenge_40k := st.challenge_40k ++ [row] }

/-- Bulk insert into `challenge_deposits`, appended in the given order. -/
def insertDeposits (st : Store) (rows : List DepositInsert) : Store :=
  { st with challenge_deposits := st.challenge_deposits ++ rows }

/-- `createChallenge` (`Challenge.tsx` lines 81–140) as a store
transformer: insert the challenge row; if that errors (the throw at line
95) nothing further runs and the store is unchanged; otherwise insert the
generated deposit rows. The result pairs the store after the call with
the surfaced error, if any. -/
def createChallenge (st : Store) (userId newChallengeId target : Nat) :
    Store × Option DbError :=
  match insertChallenge40k st
      { id := newChallengeId, user_id := userId, target_value := target } with
  | Except.error e => (st, some e)
  | Except.ok st1 =>
      (insertDeposits st1 (depositsToInsert newChallengeId target), none)

/-- The operations that ever touch a deposit row after creation: the
`updateDepositStatus` update and the onClick reset branch. -/
inductive DepositOp : Type
  | update (req : ReqStatus) (now : Nat)
  | reset

def applyOp (d : Deposit) : DepositOp → Deposit
  | DepositOp.update req now => applyStatusUpdate now req d
  | DepositOp.reset => resetToPending d

/-- The invariant of claim C5: `completed_at` is non-null exactly when the
status is `completed`. -/
def completedAtInvariant (d : Deposit) : Prop :=
  d.completed_at ≠ none ↔ d.status = Status.completed

lemma foldl_add_eq_sum {α : Type} (g : α → ℚ) :
    ∀ (l : List α) (a : ℚ), l.foldl (fun acc x => acc + g x) a = a + (l.map g).sum := by
  intro l
  induction l with
  | nil => intro a; simp
  | cons x xs ih =>
    intro a
    simp only [List.foldl_cons, List.map_cons, List.sum_cons, ih]
    ring

/-- `completedValue` as a sum over the filtered list. -/
lemma completedValue_eq_sum (ds : List Deposit) :
    completedValue ds =
      ((ds.filter fun d => d.status == Status.completed).map
        fun d => (d.deposit_value : ℚ)).sum := by
  unfold completedValue
  rw [foldl_add_eq_sum]
  simp

/-- `completedValue` as a sum of per-row contributions over the whole
list. -/
lemma completedValue_eq_contrib (ds : List Deposit) :
    completedValue ds =
      (ds.map fun d =>
        if d.status = Status.completed then (d.deposit_value : ℚ) else 0).sum := by
  rw [completedValue_eq_sum]
  induction ds with
  | nil => rfl
  | cons d rest ih =>
    by_cases h : d.status = Status.completed
    · simp [List.filter_cons, h, ih]
    · simp [List.filter_cons, h, ih]

lemma sum_map_congr {α : Type} (l : List α) (f g : α → ℚ)
    (h : ∀ a ∈ l, f a = g a) : (l.map f).sum = (l.map g).sum := by
  induction l with
  | nil => rfl
  | cons x xs ih =>
    simp only [List.map_cons, List.sum_cons]
    rw [h x (List.mem_cons_self x xs), ih (fun a ha => h a (List.mem_cons_of_mem x ha))]

lemma natCast_list_sum : ∀ (l : List Nat),
    ((l.sum : Nat) : ℚ) = (l.map fun (v : Nat) => (v : ℚ)).sum := by
  intro l
  induction l with
  | nil => simp
  | cons x xs ih => simp [List.sum_cons, Nat.cast_add, ih]

lemma generate_40000_sum : (generate 40000).sum = 40000 := by decide

lemma generate_40200_sum : (generate 40200).sum = 40200 := by decide

lemma completedAtInvariant_applyOp (d : Deposit) (op : DepositOp) :
    completedAtInvariant (applyOp d op) := by
  cases op with
  | update req now =>
    cases req <;>
      simp [applyOp, applyStatusUpdate, completedAtInvariant, ReqStatus.toStatus]
  | reset => simp [applyOp, resetToPending, completedAtInvariant]

lemma completedAtInvariant_foldl :
    ∀ (ops : List DepositOp) (d : Deposit),
      completedAtInvariant d → completedAtInvariant (ops.foldl applyOp d) := by
  intro ops
  induction ops with
  | nil => intro d h; exact h
  | cons op rest ih =>
    intro d _
    exact ih (applyOp d op) (completedAtInvariant_applyOp d op)

lemma completedAtInvariant_mk (i v so : Nat) :
    completedAtInvariant (mkDeposit i v so) := by
  simp [mkDeposit, completedAtInvariant]

end BalanceBloom

namespace BalanceBloom

/-- C1: for every supported target t ∈ {40000, 40200}, the generated
deposit sequence sums to exactly t, and its length is 399 for t = 40000
and 400 for t = 40200. -/
theorem C1_generate_sum_and_length :
    (generate 40000).sum = 40000 ∧ (generate 40000).length = 399 ∧
    (generate 40200).sum = 40200 ∧ (generate 40200).length = 400 := by
  decide

/-- C2: `generate 40200` contains every integer in [1,200] exactly twice;
`generate 40000` contains every integer in [1,200] exactly twice except
200, which appears exactly once; `generate 40000` is [1..199] followed by
[200,199,…,1]; and each inserted row's `sequence_order` is its 1-based
position in the adjusted sequence. -/
theorem C2_generate_counts_and_order :
    (∀ v ≤ 200, 1 ≤ v →
      (generate 40200).count v = 2 ∧
      (generate 40000).count v = (if v = 200 then 1 else 2)) ∧
    generate 40000 =
      ((List.range 199).map (fun i => i + 1)) ++
        ((List.range 200).map (fun i => 200 - i)) ∧
    (∀ (cid t i : Nat) (h : i < (depositsToInsert cid t).length),
      ((depositsToInsert cid t).get ⟨i, h⟩).sequence_order = i + 1) := by
  refine ⟨by decide, by decide, ?_⟩
  intro cid t i h
  have h2 : i < (generate t).length := by
    have := mapIdxFrom_length (fun index value =>
      ({ challenge_id := cid
         deposit_value := value
         sequence_order := index + 1
         status := Status.pending } : DepositInsert)) 0 (generate t)
    simpa [depositsToInsert, this] using h
  have := mapIdxFrom_get (fun index value =>
    ({ challenge_id := cid
       deposit_value := value
       sequence_order := index + 1
       status := Status.pending } : DepositInsert)) (generate t) 0 i h h2
  simp [depositsToInsert] at this ⊢
  rw [this]

/-- Concrete instance of C2_generate_counts_and_order. -/
theorem C2_generate_counts_and_order_witness :
    (generate 40200).count 7 = 2 ∧ (generate 40000).count 200 = 1 ∧
    ((depositsToInsert 5 40200).get ⟨0, by decide⟩).sequence_order = 1 := by
  refine ⟨((C2_generate_counts_and_order.1 7 (by decide) (by decide)).1), ?_, ?_⟩
  · have := (C2_generate_counts_and_order.1 200 (by decide) (by decide)).2
    simpa using this
  · exact C2_generate_counts_and_order.2.2 5 40200 0 (by decide)

/-- C3 counterexample: `updateDepositStatus` applies a requested
`'completed'` status to a skipped deposit unconditionally — the status
does not remain `skipped`, so the request is not rejected. -/
theorem C3_counterexample :
    ((updateDepositStatus 0 ReqStatus.completed 7
        [{ id := 0, deposit_value := 5, sequence_order := 1,
           status := Status.skipped, completed_at := none }]).map
      fun d => d.status) ≠ [Status.skipped] ∧
    ((updateDepositStatus 0 ReqStatus.completed 7
        [{ id := 0, deposit_value := 5, sequence_order := 1,
           status := Status.skipped, completed_at := none }]).map
      fun d => d.status) = [Status.completed] := by
  decide

/-- C3 (amended): the user-visible toggle never takes a skipped deposit
to completed — a click on a skipped deposit resets it to pending — and
every click transition lies in the four-row table of §4.2; the low-level
`updateDepositStatus` itself applies any requested status without
rejection. -/
theorem C3_click_cycle_respects_table :
    ∀ (d : Deposit) (now : Nat),
      (d.status = Status.skipped →
        clickStep now d = resetToPending d ∧
        (clickStep now d).status = Status.pending ∧
        (clickStep now d).status ≠ Status.completed) ∧
      validTransition d.status (clickStep now d).status := by
  intro d now
  constructor
  · intro h
    refine ⟨?_, ?_, ?_⟩ <;> simp [clickStep, h, resetToPending]
  · cases hs : d.status <;>
      simp [clickStep, hs, applyStatusUpdate, resetToPending,
        ReqStatus.toStatus, validTransition]

/-- Concrete instance of C3_click_cycle_respects_table. -/
theorem C3_click_cycle_witness :
    (clickStep 3 { id := 0, deposit_value := 5, sequence_order := 1,
                   status := Status.skipped, completed_at := some 2 }).status =
      Status.pending ∧
    validTransition Status.skipped
      (clickStep 3 { id := 0, deposit_value := 5, sequence_order := 1,
                     status := Status.skipped, completed_at := some 2 }).status :=
  ⟨((C3_click_cycle_respects_table
      { id := 0, deposit_value := 5, sequence_order := 1,
        status := Status.skipped, completed_at := some 2 } 3).1 rfl).2.1,
    (C3_click_cycle_respects_table
      { id := 0, deposit_value := 5, sequence_order := 1,
        status := Status.skipped, completed_at := some 2 } 3).2⟩

/-- C4: `completedValue` is the sum of deposit values of completed
deposits, `remainingValue` is target minus `completedValue`,
`progressPercent` is `(completedValue / target) * 100` for positive
target and 0 otherwise, challenge completion is exactly
`progressPercent ≥ 100`, and the raw percentage is not clamped (it
exceeds 100 on a concrete over-complete state). -/
theorem C4_progress_calculator :
    (∀ ds : List Deposit,
      completedValue ds =
        ((ds.filter fun d => d.status == Status.completed).map
          fun d => (d.deposit_value : ℚ)).sum) ∧
    (∀ (t : ℚ) (ds : List Deposit),
      remainingValue t ds = t - completedValue ds) ∧
    (∀ (t : ℚ) (ds : List Deposit),
      progressPercent t ds =
        if t > 0 then completedValue ds / t * 100 else 0) ∧
    (∀ (t : ℚ) (ds : List Deposit),
      challengeComplete t ds ↔ progressPercent t ds ≥ 100) ∧
    100 < progressPercent 10
      [{ id := 0, deposit_value := 20, sequence_order := 1,
         status := Status.completed, completed_at := some 0 }] := by
  refine ⟨completedValue_eq_sum, fun t ds => rfl, fun t ds => rfl,
    fun t ds => Iff.rfl, ?_⟩
  norm_num [progressPercent, completedValue, List.filter]

/-- C5: deposits are created pending with null `completed_at`; the
update to `'completed'` stamps `completed_at = now` while the update to
`'skipped'` and the reset clear it; and after any sequence of these
operations, `completed_at` is non-null exactly when the status is
`completed`. -/
theorem C5_completedAt_iff_completed :
    ∀ (i v so : Nat) (ops : List DepositOp),
      (mkDeposit i v so).status = Status.pending ∧
      (mkDeposit i v so).completed_at = none ∧
      (∀ (d : Deposit) (now : Nat),
        (applyStatusUpdate now ReqStatus.completed d).completed_at = some now ∧
        (applyStatusUpdate now ReqStatus.skipped d).completed_at = none ∧
        (resetToPending d).completed_at = none) ∧
      completedAtInvariant (ops.foldl applyOp (mkDeposit i v so)) := by
  intro i v so ops
  refine ⟨rfl, rfl, ?_, ?_⟩
  · intro d now
    exact ⟨rfl, rfl, rfl⟩
  · exact completedAtInvariant_foldl ops (mkDeposit i v so)
      (completedAtInvariant_mk i v so)

/-- C6: three clicks from a pending deposit with null `completed_at`
(pending → completed → skipped → pending) return it to pending with
null `completed_at`. -/
theorem C6_cycle_three_clicks :
    ∀ (d : Deposit) (t1 t2 t3 : Nat),
      d.status = Status.pending → d.completed_at = none →
      (clickStep t3 (clickStep t2 (clickStep t1 d))).status = Status.pending ∧
      (clickStep t3 (clickStep t2 (clickStep t1 d))).completed_at = none := by
  intro d t1 t2 t3 h _
  constructor <;>
    simp [clickStep, h, applyStatusUpdate, resetToPending, ReqStatus.toStatus]

/-- Concrete instance of C6_cycle_three_clicks. -/
theorem C6_cycle_three_clicks_witness :
    (clickStep 3 (clickStep 2 (clickStep 1 (mkDeposit 0 7 1)))).status =
      Status.pending ∧
    (clickStep 3 (clickStep 2 (clickStep 1 (mkDeposit 0 7 1)))).completed_at =
      none :=
  C6_cycle_three_clicks (mkDeposit 0 7 1) 1 2 3 rfl rfl

/-- C7: requesting `'completed'` on any deposit id never decreases
`completedValue`; and on a deposit that is pending, requesting
`'completed'` and then `'skipped'` restores `completedValue` to its
prior value. -/
theorem C7_accumulated_monotone_and_revert :
    (∀ (ds : List Deposit) (depositId now : Nat),
      completedValue ds ≤
        completedValue (updateDepositStatus depositId ReqStatus.completed now ds)) ∧
    (∀ (ds : List Deposit) (depositId n1 n2 : Nat),
      (∀ d ∈ ds, d.id = depositId → d.status = Status.pending) →
      completedValue
        (updateDepositStatus depositId ReqStatus.skipped n2
          (updateDepositStatus depositId ReqStatus.completed n1 ds)) =
        completedValue ds) := by
  constructor
  · intro ds depositId now
    rw [completedValue_eq_contrib, completedValue_eq_contrib,
      updateDepositStatus, List.map_map]
    refine List.sum_le_sum ?_
    intro d _
    simp only [Function.comp_apply]
    by_cases hid : d.id = depositId
    · simp only [hid, if_pos, applyStatusUpdate, ReqStatus.toStatus]
      split
      · exact le_refl _
      · exact Nat.cast_nonneg _
    · simp [hid]
  · intro ds depositId n1 n2 hpend
    rw [completedValue_eq_contrib, completedValue_eq_contrib,
      updateDepositStatus, updateDepositStatus, List.map_map, List.map_map]
    refine sum_map_congr ds _ _ ?_
    intro d hd
    simp only [Function.comp_apply]
    by_cases hid : d.id = depositId
    · have hst : d.status = Status.pending := hpend d hd hid
      simp [hid, applyStatusUpdate, ReqStatus.toStatus, hst]
    · simp [hid]

/-- Concrete instance of C7_accumulated_monotone_and_revert. -/
theorem C7_accumulated_witness :
    completedValue [mkDeposit 0 7 1] ≤
      completedValue (updateDepositStatus 0 ReqStatus.completed 5 [mkDeposit 0 7 1]) ∧
    completedValue
      (updateDepositStatus 0 ReqStatus.skipped 6
        (updateDepositStatus 0 ReqStatus.completed 5 [mkDeposit 0 7 1])) =
      completedValue [mkDeposit 0 7 1] :=
  ⟨C7_accumulated_monotone_and_revert.1 [mkDeposit 0 7 1] 0 5,
    C7_accumulated_monotone_and_revert.2 [mkDeposit 0 7 1] 0 5 6
      (by intro d hd _; simp at hd; rw [hd]; rfl)⟩

/-- C8: when the owner already has a `challenge_40k` row, the store's
`UNIQUE(user_id)` constraint makes `createChallenge` fail with
`DuplicateChallenge`, the store is unchanged, and no deposit rows are
inserted. -/
theorem C8_duplicate_challenge :
    ∀ (st : Store) (userId newId target : Nat),
      (∃ c ∈ st.challenge_40k, c.user_id = userId) →
      createChallenge st userId newId target =
        (st, some DbError.DuplicateChallenge) ∧
      (createChallenge st userId newId target).1.challenge_deposits =
        st.challenge_deposits := by
  intro st userId newId target h
  have hany : (st.challenge_40k.any fun c => c.user_id == userId) = true := by
    obtain ⟨c, hc, he⟩ := h
    exact List.any_eq_true.mpr ⟨c, hc, by simp [he]⟩
  have hmain : createChallenge st userId newId target =
      (st, some DbError.DuplicateChallenge) := by
    simp [createChallenge, insertChallenge40k, hany]
  exact ⟨hmain, by rw [hmain]⟩

/-- Concrete instance of C8_duplicate_challenge. -/
theorem C8_duplicate_challenge_witness :
    createChallenge
        { challenge_40k := [{ id := 1, user_id := 42, target_value := 40000 }]
          challenge_deposits := [] } 42 2 40200 =
      ({ challenge_40k := [{ id := 1, user_id := 42, target_value := 40000 }]
         challenge_deposits := [] }, some DbError.DuplicateChallenge) :=
  (C8_duplicate_challenge
    { challenge_40k := [{ id := 1, user_id := 42, target_value := 40000 }]
      challenge_deposits := [] } 42 2 40200
    ⟨{ id := 1, user_id := 42, target_value := 40000 }, by simp, rfl⟩).1

/-- C9: over any status assignment on the generated deposit rows of a
supported target, `completedValue` never exceeds the target, so the
remaining value is nonnegative and `progressPercent` never exceeds
100. -/
theorem C9_accumulated_le_target :
    ∀ (t : Nat), (t = 40000 ∨ t = 40200) →
    ∀ (ds : List Deposit), (ds.map fun d => d.deposit_value) = generate t →
      completedValue ds ≤ (t : ℚ) ∧
      0 ≤ remainingValue (t : ℚ) ds ∧
      progressPercent (t : ℚ) ds ≤ 100 := by
  intro t ht ds hvals
  have hle : completedValue ds ≤ (t : ℚ) := by
    rw [completedValue_eq_contrib]
    have h1 : (ds.map fun d =>
        if d.status = Status.completed then (d.deposit_value : ℚ) else 0).sum ≤
        (ds.map fun d => (d.deposit_value : ℚ)).sum := by
      refine List.sum_le_sum ?_
      intro d _
      split
      · exact le_refl _
      · exact Nat.cast_nonneg _
    have h2 : (ds.map fun d => (d.deposit_value : ℚ)).sum =
        (((generate t).sum : Nat) : ℚ) := by
      have hmm : (ds.map fun d => (d.deposit_value : ℚ)) =
          (generate t).map fun (v : Nat) => (v : ℚ) := by
        rw [← hvals, List.map_map]
        rfl
      rw [hmm, natCast_list_sum]
    have h3 : (((generate t).sum : Nat) : ℚ) = (t : ℚ) := by
      rcases ht with h | h <;> subst h
      · rw [generate_40000_sum]
      · rw [generate_40200_sum]
    calc (ds.map fun d =>
        if d.status = Status.completed then (d.deposit_value : ℚ) else 0).sum ≤
        (ds.map fun d => (d.deposit_value : ℚ)).sum := h1
      _ = (t : ℚ) := by rw [h2, h3]
  have htpos : (0 : ℚ) < (t : ℚ) := by
    rcases ht with h | h <;> subst h <;> norm_num
  refine ⟨hle, ?_, ?_⟩
  · rw [remainingValue]
    linarith
  · rw [progressPercent, if_pos htpos]
    have hdiv : completedValue ds / (t : ℚ) ≤ 1 := (div_le_one htpos).mpr hle
    calc completedValue ds / (t : ℚ) * 100 ≤ 1 * 100 :=
        mul_le_mul_of_nonneg_right hdiv (by norm_num)
      _ = 100 := by norm_num

/-- Concrete instance of C9_accumulated_le_target. -/
theorem C9_accumulated_le_target_witness :
    completedValue ((generate 40000).map fun v => mkDeposit 0 v 0) ≤
      ((40000 : Nat) : ℚ) :=
  (C9_accumulated_le_target 40000 (Or.inl rfl)
    ((generate 40000).map fun v => mkDeposit 0 v 0)
    (by rw [List.map_map]; simp [Function.comp_def, mkDeposit])).1

/-- C10: the Dashboard's challenge-progress computation (sum of completed
deposit values and the percent formula) agrees with the Challenge page's
`completedValue` and `progressPercent` on the same data. -/
theorem C10_dashboard_matches_challenge :
    ∀ (ds : List Deposit) (t : ℚ),
      dashboardCurrent ds = completedValue ds ∧
      dashboardChallengePercent t (dashboardCurrent ds) =
        progressPercent t ds := by
  intro ds t
  have h : dashboardCurrent ds = completedValue ds := by
    rw [dashboardCurrent, dashboardDepositValues, foldl_add_eq_sum,
      completedValue_eq_sum, List.map_map]
    simp [Function.comp_def]
  refine ⟨h, ?_⟩
  rw [dashboardChallengePercent, progressPercent, h]

end BalanceBloom
